import Mathlib

/-!
Verification of the BFTTF font cache module (`bfttf.c`) of nxdumptool.

The module keeps a process-wide table of seven font slots (`g_fontInfo`),
fills them once from system-title RomFS archives (`bfttfInitialize`),
de-obfuscates each fetched buffer by XORing 32-bit words with a fixed key
(`bfttfDecodeFont`), serves read-only views into the cached buffers
(`bfttfGetFontByType`) and releases everything at teardown (`bfttfExit`).

Shallow embedding conventions:
  * bytes are `Nat` values `< 256`, buffers are `List Nat`;
  * a C pointer field that may be `NULL` is an `Option`;
  * `u32` / `u64` arithmetic is `Nat` with an explicit `% 2 ^ 32` where the
    source performs a narrowing cast;
  * the external collaborators (title lookup, NCA context setup, RomFS
    context setup, RomFS path resolution, allocation, RomFS file read) are
    an explicit environment `BfttfEnv` of pure oracles;
  * the in-place mutation of `bfttfDecodeFont` becomes a function from the
    slot to a `Bool × slot` pair (success flag, updated slot), and the
    global-state mutation of the other operations becomes explicit state
    passing on `BfttfState`.
-/

/-- The fixed 32-bit obfuscation key `g_bfttfKey = 0x06186249` of bfttf.c. -/
def g_bfttfKey : Nat := 0x06186249

/-- One entry of the static font table (`BfttfFontInfo` in bfttf.c):
system title ID, path inside the RomFS section, cached size and cached
data pointer (`none` models a `NULL` pointer). -/
structure BfttfFontInfo where
  title_id : Nat
  path : String
  size : Nat
  data : Option (List Nat)
deriving DecidableEq

/-- Modelled from the spec: `BfttfFontData` is declared in `bfttf.h`, which
is not part of the sources; its three fields are exactly the ones written by
`bfttfGetFontByType` (lines 208-210): the logical type, the view size and
the view pointer.  The `ptr` field models the bytes readable from the
returned pointer, i.e. the cached buffer with its first 8 bytes dropped. -/
structure BfttfFontData where
  type : Nat
  size : Nat
  ptr : List Nat
deriving DecidableEq

/-- Modelled from the spec: `BfttfFontType_Total` comes from the missing
`bfttf.h`; the enumerated range of logical font types indexes the 7-entry
table `g_fontInfo`, so the total is 7. -/
def BfttfFontType_Total : Nat := 7

/-- The static table `g_fontInfo` of bfttf.c in its initial state:
every slot has `size = 0` and a `NULL` data pointer. -/
def g_fontInfo : List BfttfFontInfo :=
  [ ⟨0x0100000000000811, "/nintendo_udsg-r_std_003.bfttf", 0, none⟩,
    ⟨0x0100000000000810, "/nintendo_ext_003.bfttf", 0, none⟩,
    ⟨0x0100000000000810, "/nintendo_ext2_003.bfttf", 0, none⟩,
    ⟨0x0100000000000812, "/nintendo_udsg-r_ko_003.bfttf", 0, none⟩,
    ⟨0x0100000000000814, "/nintendo_udsg-r_org_zh-cn_003.bfttf", 0, none⟩,
    ⟨0x0100000000000814, "/nintendo_udsg-r_ext_zh-cn_003.bfttf", 0, none⟩,
    ⟨0x0100000000000813, "/nintendo_udjxh-db_zh-tw_003.bfttf", 0, none⟩ ]

/-- `g_fontInfoCount = MAX_ELEMENTS(g_fontInfo)`. -/
def g_fontInfoCount : Nat := g_fontInfo.length

/-- The process-wide mutable state of the module: the `g_bfttfInterfaceInit`
flag and the current contents of the `g_fontInfo` table. -/
structure BfttfState where
  g_bfttfInterfaceInit : Bool
  g_fontInfo : List BfttfFontInfo
deriving DecidableEq

/-- The state of the module before any call: flag clear, table as declared. -/
def initialBfttfState : BfttfState := ⟨false, g_fontInfo⟩

/-- Native (little-endian) `u32` read of four bytes, as done by
`*(u32*)(font_info->data + i)` on the little-endian target. -/
def u32FromBytesLE (b0 b1 b2 b3 : Nat) : Nat :=
  b0 + 256 * b1 + 65536 * b2 + 16777216 * b3

/-- The four little-endian bytes of a `u32` value. -/
def u32ToBytesLE (w : Nat) : List Nat :=
  [w % 256, w / 256 % 256, w / 65536 % 256, w / 16777216 % 256]

/-- One iteration of the decode loop body: read the `u32` at byte offset
`i`, XOR it with `g_bfttfKey`, write it back
(`*ptr = (*ptr ^ g_bfttfKey)`). -/
def xorWordAt (bs : List Nat) (i : Nat) : List Nat :=
  bs.take i ++
    u32ToBytesLE
      (u32FromBytesLE (bs.getD i 0) (bs.getD (i + 1) 0) (bs.getD (i + 2) 0)
          (bs.getD (i + 3) 0) ^^^
        g_bfttfKey) ++
    bs.drop (i + 4)

/-- The decode loop `for(u32 i = 8; i < (font_info->size - 8); i += 4)` of
`bfttfDecodeFont`.  `fuel` only bounds the recursion; the loop exit is
governed solely by the source's condition `i < sz - 8` (the caller passes
`fuel = sz`, which exceeds the iteration count).  `sz - 8` is `Nat`
truncated subtraction, which agrees with the `u32` subtraction of the
source because the precondition `sz > 8` has been checked. -/
def xorWords (bs : List Nat) (i sz fuel : Nat) : List Nat :=
  match fuel with
  | 0 => bs
  | fuel + 1 => if i < sz - 8 then xorWords (xorWordAt bs i) (i + 4) sz fuel else bs

/-- `bfttfDecodeFont`: reject a `NULL` struct/buffer, a size `≤ 8` or a size
not 4-byte aligned (`IS_ALIGNED(size, 4)`), leaving the slot untouched;
otherwise XOR every 32-bit word from offset 8 while the offset is below
`size - 8`.  Returns the C `bool` result together with the updated slot. -/
def bfttfDecodeFont (font_info : BfttfFontInfo) : Bool × BfttfFontInfo :=
  match font_info.data with
  | none => (false, font_info)
  | some bs =>
    if font_info.size ≤ 8 ∨ font_info.size % 4 ≠ 0 then (false, font_info)
    else (true, { font_info with data := some (xorWords bs 8 font_info.size font_info.size) })

/-- The empty slot, also used as the (unreachable) out-of-bounds default of
the table lookup. -/
def emptySlot : BfttfFontInfo := ⟨0, "", 0, none⟩

/-- `bfttfGetFontByType`: `font_data = none` models a `NULL` output pointer.
Returns the C `bool` result, the (unchanged) global state, and the contents
of the caller's descriptor after the call (`font_data` itself when nothing
was written). -/
def bfttfGetFontByType (st : BfttfState) (font_data : Option BfttfFontData) (font_type : Nat) :
    Bool × BfttfState × Option BfttfFontData :=
  if font_data = none ∨ BfttfFontType_Total ≤ font_type then (false, st, font_data)
  else
    let font_info := st.g_fontInfo.getD font_type emptySlot
    if font_info.size ≤ 8 ∨ font_info.data = none then (false, st, font_data)
    else
      (true, st,
        some ⟨font_type, font_info.size - 8, (font_info.data.getD []).drop 8⟩)

/-- `bfttfExit`: for every slot, set `size = 0` and `free` the buffer when
the pointer is non-`NULL`.  The source never resets `font_info->data`
after the `free`, so the `data` field keeps its (now dangling) value;
finally the `g_bfttfInterfaceInit` flag is cleared. -/
def bfttfExit (st : BfttfState) : BfttfState :=
  ⟨false, st.g_fontInfo.map fun font_info => { font_info with size := 0 }⟩

/-- The external collaborators of `bfttfInitialize`, as pure oracles.
`titleGetInfo`, `ncaInit` and `romfsInit` are keyed by the title ID being
opened; `fileEntry` (found entry size), `mallocData` and `readData` (bytes
read) are keyed by the open container's title ID / the entry identity. -/
structure BfttfEnv where
  callocNcaCtx : Bool
  titleGetInfo : Nat → Bool
  ncaInit : Nat → Bool
  romfsInit : Nat → Bool
  fileEntry : Nat → String → Option Nat
  mallocData : Nat → String → Bool
  readData : Nat → String → Option (List Nat)

/-- The loop-local state of `bfttfInitialize`: `prev_title_id`, the title
whose RomFS context is currently open (`none` while no open has succeeded),
the success counter `count`, and an instrumentation trace listing the title
ID of every container-open sequence entered (each call of
`titleGetInfoFromStorageByTitleId`). -/
structure BfttfInitState where
  prev_title_id : Nat
  romfs_ctx : Option Nat
  count : Nat
  attempts : List Nat
deriving DecidableEq

/-- The per-entry fetch part of the `bfttfInitialize` loop body (lines
116-157): RomFS path resolution, zero-size rejection, allocation, read,
size update (with the `(u32)` narrowing cast) and decode.  Returns whether
the entry succeeded, together with the slot's new contents; on a failure
after allocation the buffer is freed and the pointer reset, and on a decode
failure the size is reset as well. -/
def bfttfFetchEntry (env : BfttfEnv) (ctx : Option Nat) (font_info : BfttfFontInfo) :
    Bool × BfttfFontInfo :=
  match ctx with
  | none => (false, font_info)
  | some c =>
    match env.fileEntry c font_info.path with
    | none => (false, font_info)
    | some esize =>
      if esize = 0 then (false, font_info)
      else if env.mallocData font_info.title_id font_info.path = false then
        (false, { font_info with data := none })
      else
        match env.readData c font_info.path with
        | none => (false, { font_info with data := none })
        | some bs =>
          let fi1 : BfttfFontInfo :=
            { font_info with size := esize % 2 ^ 32, data := some bs }
          let dec := bfttfDecodeFont fi1
          if dec.1 then (true, dec.2)
          else (false, { fi1 with size := 0, data := none })

/-- One full iteration of the `bfttfInitialize` loop (lines 83-161): when
the entry's title ID differs from `prev_title_id`, run the container-open
sequence (title info, NCA context, RomFS context), recording the attempt in
the trace and updating `prev_title_id` / the open context only when all
three steps succeed; then fetch the entry and bump `count` on success. -/
def bfttfInitEntry (env : BfttfEnv) (s : BfttfInitState) (font_info : BfttfFontInfo) :
    BfttfInitState × BfttfFontInfo :=
  if font_info.title_id ≠ s.prev_title_id then
    let s1 : BfttfInitState := { s with attempts := s.attempts ++ [font_info.title_id] }
    if env.titleGetInfo font_info.title_id = false then (s1, font_info)
    else if env.ncaInit font_info.title_id = false then (s1, font_info)
    else if env.romfsInit font_info.title_id = false then (s1, font_info)
    else
      let s2 : BfttfInitState :=
        { s1 with prev_title_id := font_info.title_id, romfs_ctx := some font_info.title_id }
      let r := bfttfFetchEntry env s2.romfs_ctx font_info
      ({ s2 with count := s2.count + if r.1 then 1 else 0 }, r.2)
  else
    let r := bfttfFetchEntry env s.romfs_ctx font_info
    ({ s with count := s.count + if r.1 then 1 else 0 }, r.2)

/-- The `bfttfInitialize` loop over the font table, threading the loop
state and collecting the updated slots in table order. -/
def bfttfInitLoop (env : BfttfEnv) (s : BfttfInitState) :
    List BfttfFontInfo → BfttfInitState × List BfttfFontInfo
  | [] => (s, [])
  | font_info :: rest =>
    let r1 := bfttfInitEntry env s font_info
    let r2 := bfttfInitLoop env r1.1 rest
    (r2.1, r1.2 :: r2.2)

/-- `bfttfInitialize`: return `true` at once when the interface is already
initialized; fail when the temporary NCA context allocation fails; else run
the loop over the table and set `ret = g_bfttfInterfaceInit = (count > 0)`.
The third component is the instrumentation trace of container-open
attempts (empty when the loop never ran). -/
def bfttfInitialize (env : BfttfEnv) (st : BfttfState) :
    Bool × BfttfState × List Nat :=
  if st.g_bfttfInterfaceInit then (true, st, [])
  else if env.callocNcaCtx = false then (false, st, [])
  else
    let r := bfttfInitLoop env ⟨0, none, 0, []⟩ st.g_fontInfo
    let ret := decide (0 < r.1.count)
    (ret, ⟨ret, r.2⟩, r.1.attempts)

/-- Spec-side description of the container-open behaviour used to amend
claim C3: walking the table with `prev` the last *successfully* opened
container (initially `0`), an open sequence is attempted exactly for the
entries whose container ID differs from `prev`. -/
def openSuccess (env : BfttfEnv) (t : Nat) : Bool :=
  env.titleGetInfo t && env.ncaInit t && env.romfsInit t

/-- The list of container-open attempts predicted by the amended C3 claim. -/
def containerOpenAttempts (env : BfttfEnv) (prev : Nat) :
    List BfttfFontInfo → List Nat
  | [] => []
  | font_info :: rest =>
    if font_info.title_id ≠ prev then
      font_info.title_id ::
        containerOpenAttempts env
          (if openSuccess env font_info.title_id = true then font_info.title_id else prev)
          rest
    else containerOpenAttempts env prev rest

/-- An environment in which every collaborator call fails (only the
temporary NCA context allocation succeeds). -/
def envAllFail : BfttfEnv :=
  ⟨true, fun _ => false, fun _ => false, fun _ => false, fun _ _ => none,
    fun _ _ => false, fun _ _ => none⟩

/-- A 12-byte raw buffer (8-byte header plus one 4-byte payload word) in
slot 0's descriptor, as fetched but not yet decoded. -/
def sampleSlot : BfttfFontInfo :=
  ⟨0x0100000000000811, "/nintendo_udsg-r_std_003.bfttf", 12,
    some [0, 1, 2, 3, 4, 5, 6, 7, 0xAA, 0xBB, 0xCC, 0xDD]⟩

/-- A cache state whose slot 0 holds the 12-byte sample buffer and whose
remaining slots are still empty. -/
def sampleState : BfttfState := ⟨true, sampleSlot :: g_fontInfo.drop 1⟩

/-- A 20-byte all-sevens buffer used as a concrete involution input. -/
def involutionSlot : BfttfFontInfo := ⟨0, "", 20, some (List.replicate 20 7)⟩

/-- An environment in which every collaborator call succeeds: each entry
resolves to a 12-byte file whose read returns a fixed 12-byte buffer. -/
def envOK : BfttfEnv :=
  ⟨true, fun _ => true, fun _ => true, fun _ => true, fun _ _ => some 12,
    fun _ _ => true, fun _ _ => some [0, 1, 2, 3, 4, 5, 6, 7, 8, 9, 10, 11]⟩

/-! ## Arithmetic helpers: `Nat.xor` acts digit-wise on base-256 digits -/

/-- XOR commutes with truncation to the low `n` bits. -/
theorem natXorModTwoPow (a b n : Nat) : (a ^^^ b) % 2 ^ n = a % 2 ^ n ^^^ b % 2 ^ n := by
  apply Nat.eq_of_testBit_eq
  intro k
  simp only [Nat.testBit_mod_two_pow, Nat.testBit_xor]
  by_cases h : k < n <;> simp [h]

/-- XOR commutes with division by a power of two. -/
theorem natXorDivTwoPow (a b n : Nat) : (a ^^^ b) / 2 ^ n = a / 2 ^ n ^^^ b / 2 ^ n := by
  rw [← Nat.shiftRight_eq_div_pow, ← Nat.shiftRight_eq_div_pow, ← Nat.shiftRight_eq_div_pow]
  apply Nat.eq_of_testBit_eq
  intro k
  simp [Nat.testBit_shiftRight, Nat.testBit_xor]

/-- The XOR of two bytes is a byte. -/
theorem natXorLt256 (a b : Nat) (ha : a < 256) (hb : b < 256) : a ^^^ b < 256 := by
  have h := natXorModTwoPow a b 8
  rw [show (2 : Nat) ^ 8 = 256 from by norm_num] at h
  rw [Nat.mod_eq_of_lt ha, Nat.mod_eq_of_lt hb] at h
  have h2 : (a ^^^ b) % 256 < 256 := Nat.mod_lt _ (by norm_num)
  omega

/-- The little-endian bytes of a XOR are the XORs of the bytes. -/
theorem u32ToBytesLE_xor (a b : Nat) :
    u32ToBytesLE (a ^^^ b) =
      [a % 256 ^^^ b % 256, a / 256 % 256 ^^^ b / 256 % 256,
        a / 65536 % 256 ^^^ b / 65536 % 256,
        a / 16777216 % 256 ^^^ b / 16777216 % 256] := by
  have h8 : (256 : Nat) = 2 ^ 8 := by norm_num
  have h16 : (65536 : Nat) = 2 ^ 16 := by norm_num
  have h24 : (16777216 : Nat) = 2 ^ 24 := by norm_num
  simp only [u32ToBytesLE, h8, h16, h24, natXorModTwoPow, natXorDivTwoPow]

/-- Reading a `u32` from four bytes and taking it apart again returns the
original bytes. -/
theorem u32FromBytesLE_digits (b0 b1 b2 b3 : Nat) (h0 : b0 < 256) (h1 : b1 < 256)
    (h2 : b2 < 256) (h3 : b3 < 256) :
    u32FromBytesLE b0 b1 b2 b3 % 256 = b0 ∧
      u32FromBytesLE b0 b1 b2 b3 / 256 % 256 = b1 ∧
        u32FromBytesLE b0 b1 b2 b3 / 65536 % 256 = b2 ∧
          u32FromBytesLE b0 b1 b2 b3 / 16777216 % 256 = b3 := by
  unfold u32FromBytesLE
  refine ⟨by omega, by omega, by omega, by omega⟩

/-- The little-endian byte representation of the key `0x06186249`. -/
theorem u32ToBytesLE_key : u32ToBytesLE g_bfttfKey = [0x49, 0x62, 0x18, 0x06] := by
  decide

/-- XORing the `u32` read from four bytes with the key and writing it back
XORs each byte with the corresponding key byte. -/
theorem u32_word_xor_key (b0 b1 b2 b3 : Nat) (h0 : b0 < 256) (h1 : b1 < 256)
    (h2 : b2 < 256) (h3 : b3 < 256) :
    u32ToBytesLE (u32FromBytesLE b0 b1 b2 b3 ^^^ g_bfttfKey) =
      [b0 ^^^ 0x49, b1 ^^^ 0x62, b2 ^^^ 0x18, b3 ^^^ 0x06] := by
  obtain ⟨d0, d1, d2, d3⟩ := u32FromBytesLE_digits b0 b1 b2 b3 h0 h1 h2 h3
  rw [u32ToBytesLE_xor, d0, d1, d2, d3]
  norm_num [g_bfttfKey]

/-! ## List access helpers -/

/-- `getD` through `take`, below the cut. -/
theorem getD_take_of_lt (bs : List Nat) (i j : Nat) (h : j < i) :
    (bs.take i).getD j 0 = bs.getD j 0 := by
  rw [List.getD_eq_getElem?_getD, List.getD_eq_getElem?_getD, List.getElem?_take, if_pos h]

/-- `getD` through `drop`. -/
theorem getD_drop_eq (bs : List Nat) (i j : Nat) :
    (bs.drop i).getD j 0 = bs.getD (i + j) 0 := by
  rw [List.getD_eq_getElem?_getD, List.getD_eq_getElem?_getD, List.getElem?_drop]

/-- A `getD` value of a byte list is a byte (out of range it is the
default `0`). -/
theorem getD_lt_256 (bs : List Nat) (hb : ∀ b ∈ bs, b < 256) (j : Nat) :
    bs.getD j 0 < 256 := by
  by_cases h : j < bs.length
  · rw [List.getD_eq_getElem _ _ h]
    exact hb _ (List.getElem_mem h)
  · rw [List.getD_eq_getElem?_getD, List.getElem?_len_le (by omega)]
    norm_num

/-- Two byte lists of the same length with the same `getD` values at every
index are equal. -/
theorem list_ext_getD (l1 l2 : List Nat) (hlen : l1.length = l2.length)
    (h : ∀ j, l1.getD j 0 = l2.getD j 0) : l1 = l2 := by
  apply List.ext_getElem hlen
  intro j hj1 hj2
  have := h j
  rwa [List.getD_eq_getElem _ _ hj1, List.getD_eq_getElem _ _ hj2] at this

/-! ## Characterization of the decode loop -/

/-- Rewriting one word in place preserves the buffer length. -/
theorem length_xorWordAt (bs : List Nat) (i : Nat) (h : i + 4 ≤ bs.length) :
    (xorWordAt bs i).length = bs.length := by
  simp [xorWordAt, u32ToBytesLE, List.length_take, List.length_drop]
  omega

/-- Rewriting one word in place keeps all entries below 256. -/
theorem mem_xorWordAt_lt (bs : List Nat) (i : Nat) (hb : ∀ b ∈ bs, b < 256) :
    ∀ b ∈ xorWordAt bs i, b < 256 := by
  intro b hmem
  simp only [xorWordAt, List.mem_append] at hmem
  rcases hmem with (h | h) | h
  · exact hb b (List.mem_of_mem_take h)
  · simp only [u32ToBytesLE, List.mem_cons, List.not_mem_nil, or_false] at h
    rcases h with h | h | h | h <;> omega
  · exact hb b (List.mem_of_mem_drop h)

/-- Effect of one loop iteration on each byte: the four bytes of the word
at offset `i` are XORed with the four key bytes, everything else is kept. -/
theorem getD_xorWordAt (bs : List Nat) (i j : Nat) (h : i + 4 ≤ bs.length)
    (hb : ∀ b ∈ bs, b < 256) :
    (xorWordAt bs i).getD j 0 =
      if i ≤ j ∧ j < i + 4 then
        bs.getD j 0 ^^^ (u32ToBytesLE g_bfttfKey).getD (j - i) 0
      else bs.getD j 0 := by
  have hmid := u32_word_xor_key (bs.getD i 0) (bs.getD (i + 1) 0) (bs.getD (i + 2) 0)
    (bs.getD (i + 3) 0) (getD_lt_256 bs hb i) (getD_lt_256 bs hb (i + 1))
    (getD_lt_256 bs hb (i + 2)) (getD_lt_256 bs hb (i + 3))
  have htake : (bs.take i).length = i := by rw [List.length_take]; omega
  unfold xorWordAt
  rw [hmid, u32ToBytesLE_key, List.append_assoc]
  by_cases hj1 : j < i
  · rw [if_neg (by omega), List.getD_append _ _ _ _ (by omega), getD_take_of_lt bs i j hj1]
  · rw [List.getD_append_right _ _ _ _ (by omega), htake]
    by_cases hj2 : j < i + 4
    · rw [if_pos ⟨by omega, hj2⟩]
      rcases (show j - i = 0 ∨ j - i = 1 ∨ j - i = 2 ∨ j - i = 3 from by omega) with
        hc | hc | hc | hc
      · rw [hc, show j = i from by omega]; simp [List.getD]
      · rw [hc, show j = i + 1 from by omega]; simp [List.getD]
      · rw [hc, show j = i + 2 from by omega]; simp [List.getD]
      · rw [hc, show j = i + 3 from by omega]; simp [List.getD]
    · rw [if_neg (by omega), List.getD_append_right _ _ _ _ (by simp; omega)]
      have hidx : j - i - [bs.getD i 0 ^^^ 73, bs.getD (i + 1) 0 ^^^ 98,
          bs.getD (i + 2) 0 ^^^ 24, bs.getD (i + 3) 0 ^^^ 6].length = j - i - 4 := by
        simp
      rw [hidx, getD_drop_eq]
      have : i + 4 + (j - i - 4) = j := by omega
      rw [this]

/-- Full characterization of the decode loop started at offset `i`: it
preserves length and byte bounds, and XORs exactly the bytes in
`[i, sz - 8)` with the key byte at their offset `mod 4`. -/
theorem xorWords_spec (fuel : Nat) : ∀ (bs : List Nat) (i sz : Nat),
    bs.length = sz → i % 4 = 0 → sz % 4 = 0 → 8 ≤ i → sz - 8 ≤ i + 4 * fuel →
    (∀ b ∈ bs, b < 256) →
    (xorWords bs i sz fuel).length = sz ∧
      (∀ b ∈ xorWords bs i sz fuel, b < 256) ∧
        ∀ j, (xorWords bs i sz fuel).getD j 0 =
          if i ≤ j ∧ j < sz - 8 then
            bs.getD j 0 ^^^ (u32ToBytesLE g_bfttfKey).getD (j % 4) 0
          else bs.getD j 0 := by
  induction fuel with
  | zero =>
    intro bs i sz hlen hi4 hsz4 hi8 hfuel hb
    refine ⟨hlen, hb, ?_⟩
    intro j
    rw [if_neg (by omega)]
    rfl
  | succ fuel ih =>
    intro bs i sz hlen hi4 hsz4 hi8 hfuel hb
    by_cases hlt : i < sz - 8
    · have hx : xorWords bs i sz (fuel + 1) = xorWords (xorWordAt bs i) (i + 4) sz fuel := by
        rw [show xorWords bs i sz (fuel + 1) =
            if i < sz - 8 then xorWords (xorWordAt bs i) (i + 4) sz fuel else bs from rfl,
          if_pos hlt]
      have hi4sz : i + 4 ≤ sz - 8 := by omega
      have hib : i + 4 ≤ bs.length := by omega
      have hlen1 : (xorWordAt bs i).length = sz := by rw [length_xorWordAt bs i hib, hlen]
      have hb1 : ∀ b ∈ xorWordAt bs i, b < 256 := mem_xorWordAt_lt bs i hb
      obtain ⟨hL, hB, hG⟩ :=
        ih (xorWordAt bs i) (i + 4) sz hlen1 (by omega) hsz4 (by omega) (by omega) hb1
      refine ⟨by rw [hx]; exact hL, by rw [hx]; exact hB, ?_⟩
      intro j
      rw [hx, hG j, getD_xorWordAt bs i j hib hb]
      split_ifs with h1 h2 h3 <;>
        first
          | rfl
          | (exfalso; omega)
          | (rw [show j - i = j % 4 from by omega])
    · have hx : xorWords bs i sz (fuel + 1) = bs := by
        rw [show xorWords bs i sz (fuel + 1) =
            if i < sz - 8 then xorWords (xorWordAt bs i) (i + 4) sz fuel else bs from rfl,
          if_neg hlt]
      refine ⟨by rw [hx, hlen], by rw [hx]; exact hb, ?_⟩
      intro j
      rw [hx, if_neg (by omega)]

/-- `bfttfDecodeFont` on a valid slot succeeds and produces the byte-wise
XOR of the buffer with the key over the range `[8, size - 8)`. -/
theorem bfttfDecodeFont_spec (fi : BfttfFontInfo) (bs : List Nat)
    (hdata : fi.data = some bs) (hsz : 8 < fi.size) (h4 : fi.size % 4 = 0)
    (hlen : bs.length = fi.size) (hb : ∀ b ∈ bs, b < 256) :
    bfttfDecodeFont fi = (true, { fi with data := some (xorWords bs 8 fi.size fi.size) }) ∧
      (xorWords bs 8 fi.size fi.size).length = fi.size ∧
        (∀ b ∈ xorWords bs 8 fi.size fi.size, b < 256) ∧
          ∀ j, (xorWords bs 8 fi.size fi.size).getD j 0 =
            if 8 ≤ j ∧ j < fi.size - 8 then
              bs.getD j 0 ^^^ (u32ToBytesLE g_bfttfKey).getD (j % 4) 0
            else bs.getD j 0 := by
  obtain ⟨hL, hB, hG⟩ := xorWords_spec fi.size bs 8 fi.size hlen (by norm_num) h4
    (by norm_num) (by omega) hb
  refine ⟨?_, hL, hB, hG⟩
  simp only [bfttfDecodeFont, hdata]
  rw [if_neg (by omega)]

/-! ## Claim theorems -/

/-- C2: for every buffer satisfying the transform's precondition (size > 8,
size a multiple of 4, buffer non-null), applying the obfuscation transform
twice with the same fixed key succeeds and yields the original buffer
byte-for-byte (the transform is an involution). -/
theorem C2_decode_involution (fi : BfttfFontInfo) (bs : List Nat)
    (hdata : fi.data = some bs) (hsz : 8 < fi.size) (h4 : fi.size % 4 = 0)
    (hlen : bs.length = fi.size) (hb : ∀ b ∈ bs, b < 256) :
    (bfttfDecodeFont fi).1 = true ∧
      bfttfDecodeFont (bfttfDecodeFont fi).2 = (true, fi) := by
  obtain ⟨t, p, sz, d⟩ := fi
  simp only at hdata hsz h4 hlen
  subst hdata
  obtain ⟨heq1, hL1, hB1, hG1⟩ :=
    bfttfDecodeFont_spec ⟨t, p, sz, some bs⟩ bs rfl hsz h4 hlen hb
  obtain ⟨heq2, hL2, hB2, hG2⟩ :=
    bfttfDecodeFont_spec ⟨t, p, sz, some (xorWords bs 8 sz sz)⟩ (xorWords bs 8 sz sz) rfl
      hsz h4 hL1 hB1
  have hback : xorWords (xorWords bs 8 sz sz) 8 sz sz = bs := by
    apply list_ext_getD
    · rw [hL2, hlen]
    · intro j
      rw [hG2 j]
      split_ifs with hc
      · rw [hG1 j, if_pos hc, Nat.xor_assoc, Nat.xor_self, Nat.xor_zero]
      · rw [hG1 j, if_neg hc]
  rw [heq1]
  refine ⟨rfl, ?_⟩
  simp only
  rw [heq2]
  simp only
  rw [hback]

/-- C2 witness: the involution at the concrete 20-byte all-sevens buffer. -/
theorem C2_witness :
    (bfttfDecodeFont involutionSlot).1 = true ∧
      bfttfDecodeFont (bfttfDecodeFont involutionSlot).2 = (true, involutionSlot) :=
  C2_decode_involution involutionSlot (List.replicate 20 7) rfl (by decide) (by decide)
    (by decide) (by decide)

/-- C8: for every slot whose size is `≤ 8`, or whose size is not a multiple
of 4, or whose buffer is null, the obfuscation transform reports failure
and leaves the slot (in particular the buffer) byte-for-byte unchanged. -/
theorem C8_decode_failure (fi : BfttfFontInfo)
    (h : fi.size ≤ 8 ∨ fi.size % 4 ≠ 0 ∨ fi.data = none) :
    bfttfDecodeFont fi = (false, fi) := by
  rcases hd : fi.data with _ | bs
  · simp [bfttfDecodeFont, hd]
  · have h2 : fi.size ≤ 8 ∨ fi.size % 4 ≠ 0 := by
      rcases h with h | h | h
      · exact Or.inl h
      · exact Or.inr h
      · rw [hd] at h; cases h
    simp only [bfttfDecodeFont, hd]
    rw [if_pos h2]

/-- C8 witness: a 7-byte buffer is rejected unchanged. -/
theorem C8_witness :
    bfttfDecodeFont ⟨0, "", 7, some [1, 2, 3, 4, 5, 6, 7]⟩ =
      (false, ⟨0, "", 7, some [1, 2, 3, 4, 5, 6, 7]⟩) :=
  C8_decode_failure ⟨0, "", 7, some [1, 2, 3, 4, 5, 6, 7]⟩ (by decide)

/-- C9: after teardown, a lookup of any logical asset type (with any output
descriptor) returns unavailable, because every slot's size has been reset
to 0. -/
theorem C9_lookup_after_exit (st : BfttfState) (fd : Option BfttfFontData) (t : Nat) :
    (bfttfGetFontByType (bfttfExit st) fd t).1 = false := by
  unfold bfttfGetFontByType bfttfExit
  by_cases h1 : fd = none ∨ BfttfFontType_Total ≤ t
  · rw [if_pos h1]
  · rw [if_neg h1]
    have hsize :
        ((st.g_fontInfo.map fun fi => { fi with size := 0 }).getD t emptySlot).size = 0 := by
      rw [List.getD_eq_getElem?_getD, List.getElem?_map]
      cases h : st.g_fontInfo[t]? <;> simp [h, emptySlot]
    simp only
    rw [if_pos (Or.inl (by rw [hsize]; omega))]

/-- C10: whenever the lookup fails (null output descriptor, type out of
range, or slot unavailable), the caller-supplied output descriptor and the
cache state are both left entirely unchanged; the descriptor is written
only on the success path. -/
theorem C10_lookup_frame (st : BfttfState) (fd : Option BfttfFontData) (t : Nat)
    (h : (bfttfGetFontByType st fd t).1 = false) :
    bfttfGetFontByType st fd t = (false, st, fd) := by
  unfold bfttfGetFontByType at h ⊢
  split_ifs at h ⊢ with h1
  · rfl
  · simp only at h ⊢
    split_ifs at h ⊢ with h2
    rfl

/-- C10 witness: a lookup with a null output descriptor on the initial
state fails and changes nothing. -/
theorem C10_witness :
    bfttfGetFontByType initialBfttfState none 0 = (false, initialBfttfState, none) :=
  C10_lookup_frame initialBfttfState none 0 (by decide)

/-- C4: for an in-range type whose slot holds a cached buffer of size
`S > 8`, the lookup succeeds with a view of size `S - 8` whose bytes are
the cached buffer minus its 8-byte header (so its first byte is byte 8 of
the raw buffer); the lookup fails whenever the slot's size is `≤ 8`, the
buffer is absent, or the type is out of range. -/
theorem C4_lookup_view (st : BfttfState) (fd : Option BfttfFontData) (t : Nat)
    (bs : List Nat) (hfd : fd ≠ none) :
    (t < BfttfFontType_Total →
        (st.g_fontInfo.getD t emptySlot).data = some bs →
        8 < (st.g_fontInfo.getD t emptySlot).size →
        bfttfGetFontByType st fd t =
            (true, st,
              some ⟨t, (st.g_fontInfo.getD t emptySlot).size - 8, bs.drop 8⟩) ∧
          (bs.drop 8).head? = bs[8]?) ∧
      (BfttfFontType_Total ≤ t → (bfttfGetFontByType st fd t).1 = false) ∧
      ((st.g_fontInfo.getD t emptySlot).size ≤ 8 →
        (bfttfGetFontByType st fd t).1 = false) ∧
      ((st.g_fontInfo.getD t emptySlot).data = none →
        (bfttfGetFontByType st fd t).1 = false) := by
  refine ⟨?_, ?_, ?_, ?_⟩
  · intro ht hdata hsz
    constructor
    · unfold bfttfGetFontByType
      rw [if_neg (by push_neg; exact ⟨hfd, by omega⟩)]
      simp only
      rw [if_neg (by push_neg; exact ⟨by omega, by rw [hdata]; exact fun hc => by cases hc⟩),
        hdata]
      rfl
    · exact (List.head?_drop bs 8).trans rfl
  · intro ht
    unfold bfttfGetFontByType
    rw [if_pos (Or.inr ht)]
  · intro hsz
    unfold bfttfGetFontByType
    by_cases h1 : fd = none ∨ BfttfFontType_Total ≤ t
    · rw [if_pos h1]
    · rw [if_neg h1]
      simp only
      rw [if_pos (Or.inl hsz)]
  · intro hdata
    unfold bfttfGetFontByType
    by_cases h1 : fd = none ∨ BfttfFontType_Total ≤ t
    · rw [if_pos h1]
    · rw [if_neg h1]
      simp only
      rw [if_pos (Or.inr hdata)]

/-- C4 witness: the lookup on the concrete populated slot 0 of
`sampleState` returns the 4-byte view past the 8-byte header. -/
theorem C4_witness :
    bfttfGetFontByType sampleState (some ⟨0, 0, []⟩) 0 =
        (true, sampleState, some ⟨0, 4, [0xAA, 0xBB, 0xCC, 0xDD]⟩) ∧
      ([0xAA, 0xBB, 0xCC, 0xDD] : List Nat).head? =
        [(0 : Nat), 1, 2, 3, 4, 5, 6, 7, 0xAA, 0xBB, 0xCC, 0xDD][8]? := by
  have h := (C4_lookup_view sampleState (some ⟨0, 0, []⟩) 0
    [0, 1, 2, 3, 4, 5, 6, 7, 0xAA, 0xBB, 0xCC, 0xDD] (by decide)).1
    (by decide) (by decide) (by decide)
  exact ⟨h.1, h.2⟩

/-- C1: contrary to the claim, for a raw fetched 12-byte buffer (8-byte
header plus one 4-byte payload word) the decode step XORs nothing: the
loop `for(i = 8; i < size - 8; i += 4)` has an empty range (`8 < 4` is
false), so the decode succeeds leaving the buffer unchanged, and the
subsequent lookup returns the original payload word, not the payload XORed
with the key.  This contradicts the purpose of the decode (the lookup
serves bytes `[8, size)` as decoded font data) and the spec's own scenario,
so it is recorded as a code bug (loop bound `size - 8` instead of `size`). -/
theorem C1_decode_code_bug :
    (bfttfDecodeFont sampleSlot).1 = true ∧
      (bfttfDecodeFont sampleSlot).2 = sampleSlot ∧
      bfttfGetFontByType sampleState (some ⟨0, 0, []⟩) 0 =
        (true, sampleState, some ⟨0, 4, [0xAA, 0xBB, 0xCC, 0xDD]⟩) ∧
      [0xAA, 0xBB, 0xCC, 0xDD] ≠
        [0xAA ^^^ 0x49, 0xBB ^^^ 0x62, 0xCC ^^^ 0x18, 0xDD ^^^ 0x06] := by
  decide

/-- C5: contrary to the claim, teardown does not leave the slots with an
absent buffer pointer: `bfttfExit` resets every size to 0 and clears the
flag, but never nulls `font_info->data` after the `free`, so a previously
populated slot ends with `size = 0` and a stale non-null pointer — the
claimed invariant `size = 0 → buffer absent` fails after teardown (and a
second `bfttfExit` would free the pointer again). -/
theorem C5_exit_code_bug :
    (bfttfExit sampleState).g_bfttfInterfaceInit = false ∧
      ((bfttfExit sampleState).g_fontInfo.getD 0 emptySlot).size = 0 ∧
      ((bfttfExit sampleState).g_fontInfo.getD 0 emptySlot).data =
        some [0, 1, 2, 3, 4, 5, 6, 7, 0xAA, 0xBB, 0xCC, 0xDD] ∧
      ((bfttfExit sampleState).g_fontInfo.getD 0 emptySlot).data ≠ none := by
  decide

/-! ## Lemmas about the initialization loop -/

/-- `bfttfDecodeFont` either fails leaving the slot unchanged, or succeeds
leaving a non-null buffer in the slot. -/
theorem bfttfDecodeFont_cases (fi : BfttfFontInfo) :
    ((bfttfDecodeFont fi).1 = false ∧ (bfttfDecodeFont fi).2 = fi) ∨
      ((bfttfDecodeFont fi).1 = true ∧ (bfttfDecodeFont fi).2.data ≠ none) := by
  unfold bfttfDecodeFont
  split
  · left; exact ⟨rfl, rfl⟩
  · split_ifs
    · left; exact ⟨rfl, rfl⟩
    · right; exact ⟨rfl, by simp⟩

/-- The fetch part of one loop iteration either succeeds leaving a
non-null buffer, or fails leaving the slot in one of its reset shapes. -/
theorem bfttfFetchEntry_disj (env : BfttfEnv) (ctx : Option Nat) (fi : BfttfFontInfo) :
    ((bfttfFetchEntry env ctx fi).1 = true ∧ (bfttfFetchEntry env ctx fi).2.data ≠ none) ∨
      ((bfttfFetchEntry env ctx fi).1 = false ∧
        ((bfttfFetchEntry env ctx fi).2 = fi ∨
          (bfttfFetchEntry env ctx fi).2 = { fi with data := none } ∨
          (bfttfFetchEntry env ctx fi).2 = { fi with size := 0, data := none })) := by
  unfold bfttfFetchEntry
  split
  · right; exact ⟨rfl, Or.inl rfl⟩
  · split
    · right; exact ⟨rfl, Or.inl rfl⟩
    · split_ifs with h1 h2
      · right; exact ⟨rfl, Or.inl rfl⟩
      · right; exact ⟨rfl, Or.inr (Or.inl rfl)⟩
      · split
        · right; exact ⟨rfl, Or.inr (Or.inl rfl)⟩
        · simp only
          split_ifs with h3
          · left
            rcases bfttfDecodeFont_cases { fi with size := _ % 2 ^ 32, data := some _ } with
              ⟨hf, _⟩ | ⟨_, hdat⟩
            · rw [h3] at hf; cases hf
            · exact ⟨rfl, hdat⟩
          · right; exact ⟨rfl, Or.inr (Or.inr rfl)⟩

/-- On a still-empty slot, a fetch failure leaves the slot exactly as it
was. -/
theorem bfttfFetchEntry_empty (env : BfttfEnv) (ctx : Option Nat) (fi : BfttfFontInfo)
    (h0 : fi.size = 0) (hd : fi.data = none) :
    ((bfttfFetchEntry env ctx fi).1 = true ∧ (bfttfFetchEntry env ctx fi).2.data ≠ none) ∨
      ((bfttfFetchEntry env ctx fi).1 = false ∧ (bfttfFetchEntry env ctx fi).2 = fi) := by
  rcases bfttfFetchEntry_disj env ctx fi with ⟨h1, h2⟩ | ⟨h1, h2⟩
  · left; exact ⟨h1, h2⟩
  · right
    refine ⟨h1, ?_⟩
    obtain ⟨t, p, sz, d⟩ := fi
    simp only at h0 hd
    subst h0; subst hd
    rcases h2 with h | h | h <;> simpa using h

/-- One loop iteration appends an open attempt to the trace exactly when
the entry's title differs from `prev_title_id`, and updates
`prev_title_id` exactly when that attempt fully succeeds. -/
theorem bfttfInitEntry_open (env : BfttfEnv) (s : BfttfInitState) (fi : BfttfFontInfo) :
    (bfttfInitEntry env s fi).1.attempts =
        s.attempts ++ (if fi.title_id ≠ s.prev_title_id then [fi.title_id] else []) ∧
      (bfttfInitEntry env s fi).1.prev_title_id =
        (if fi.title_id ≠ s.prev_title_id ∧ openSuccess env fi.title_id = true then
          fi.title_id
        else s.prev_title_id) := by
  unfold bfttfInitEntry
  by_cases hne : fi.title_id ≠ s.prev_title_id
  · rw [if_pos hne]
    by_cases h1 : env.titleGetInfo fi.title_id = false
    · rw [if_pos h1]
      exact ⟨by rw [if_pos hne], by rw [if_neg fun hc => by simp [openSuccess, h1] at hc]⟩
    · rw [if_neg h1]
      by_cases h2 : env.ncaInit fi.title_id = false
      · rw [if_pos h2]
        exact ⟨by rw [if_pos hne], by rw [if_neg fun hc => by simp [openSuccess, h2] at hc]⟩
      · rw [if_neg h2]
        by_cases h3 : env.romfsInit fi.title_id = false
        · rw [if_pos h3]
          exact ⟨by rw [if_pos hne],
            by rw [if_neg fun hc => by simp [openSuccess, h3] at hc]⟩
        · rw [if_neg h3]
          simp only
          have ho : openSuccess env fi.title_id = true := by
            simp only [Bool.not_eq_false] at h1 h2 h3
            simp only [openSuccess, Bool.and_eq_true]
            exact ⟨⟨h1, h2⟩, h3⟩
          exact ⟨by rw [if_pos hne], by rw [if_pos ⟨hne, ho⟩]⟩
  · rw [if_neg hne]
    simp only
    exact ⟨by rw [if_neg hne]; simp, by rw [if_neg fun hc => hne hc.1]⟩

/-- One loop iteration on a still-empty slot bumps `count` exactly when the
slot comes out populated, and a failed iteration leaves the slot exactly
as it was. -/
theorem bfttfInitEntry_slot (env : BfttfEnv) (s : BfttfInitState) (fi : BfttfFontInfo)
    (h0 : fi.size = 0) (hd : fi.data = none) :
    (bfttfInitEntry env s fi).1.count =
        s.count + (if (bfttfInitEntry env s fi).2.data ≠ none then 1 else 0) ∧
      ((bfttfInitEntry env s fi).2.data = none → (bfttfInitEntry env s fi).2 = fi) := by
  unfold bfttfInitEntry
  by_cases hne : fi.title_id ≠ s.prev_title_id
  · rw [if_pos hne]
    by_cases h1 : env.titleGetInfo fi.title_id = false
    · rw [if_pos h1]
      exact ⟨by simp [hd], fun _ => rfl⟩
    · rw [if_neg h1]
      by_cases h2 : env.ncaInit fi.title_id = false
      · rw [if_pos h2]
        exact ⟨by simp [hd], fun _ => rfl⟩
      · rw [if_neg h2]
        by_cases h3 : env.romfsInit fi.title_id = false
        · rw [if_pos h3]
          exact ⟨by simp [hd], fun _ => rfl⟩
        · rw [if_neg h3]
          simp only
          rcases bfttfFetchEntry_empty env (some fi.title_id) fi h0 hd with
            ⟨hr1, hr2⟩ | ⟨hr1, hr2⟩
          · exact ⟨by simp [hr1, hr2], fun hc => absurd hc hr2⟩
          · exact ⟨by simp [hr1, hr2, hd], fun _ => hr2⟩
  · rw [if_neg hne]
    simp only
    rcases bfttfFetchEntry_empty env s.romfs_ctx fi h0 hd with ⟨hr1, hr2⟩ | ⟨hr1, hr2⟩
    · exact ⟨by simp [hr1, hr2], fun hc => absurd hc hr2⟩
    · exact ⟨by simp [hr1, hr2, hd], fun _ => hr2⟩

/-- The loop's container-open attempt trace is exactly the one predicted by
`containerOpenAttempts`, appended to the trace accumulated so far. -/
theorem bfttfInitLoop_attempts (env : BfttfEnv) :
    ∀ (tbl : List BfttfFontInfo) (s : BfttfInitState),
      (bfttfInitLoop env s tbl).1.attempts =
        s.attempts ++ containerOpenAttempts env s.prev_title_id tbl := by
  intro tbl
  induction tbl with
  | nil => intro s; simp [bfttfInitLoop, containerOpenAttempts]
  | cons fi rest ih =>
    intro s
    obtain ⟨ha, hp⟩ := bfttfInitEntry_open env s fi
    have hstep : (bfttfInitLoop env s (fi :: rest)).1.attempts =
        (bfttfInitLoop env (bfttfInitEntry env s fi).1 rest).1.attempts := rfl
    have hcoa : containerOpenAttempts env s.prev_title_id (fi :: rest) =
        if fi.title_id ≠ s.prev_title_id then
          fi.title_id ::
            containerOpenAttempts env
              (if openSuccess env fi.title_id = true then fi.title_id else s.prev_title_id)
              rest
        else containerOpenAttempts env s.prev_title_id rest := rfl
    rw [hstep, ih, ha, hp, hcoa]
    by_cases hne : fi.title_id ≠ s.prev_title_id
    · rw [if_pos hne, if_pos hne]
      by_cases ho : openSuccess env fi.title_id = true
      · rw [if_pos ⟨hne, ho⟩, if_pos ho]
        simp
      · rw [if_neg fun hc => ho hc.2, if_neg ho]
        simp
    · rw [if_neg hne, if_neg hne, if_neg fun hc => hne hc.1]
      simp

/-- Running the loop over a table of empty slots: the slot list keeps its
length, `count` grows by exactly the number of slots that come out
populated, a slot that comes out unpopulated has size 0, and if no slot
came out populated the table is byte-for-byte unchanged. -/
theorem bfttfInitLoop_slots (env : BfttfEnv) :
    ∀ (tbl : List BfttfFontInfo) (s : BfttfInitState),
      (∀ fi ∈ tbl, fi.size = 0 ∧ fi.data = none) →
      (bfttfInitLoop env s tbl).2.length = tbl.length ∧
        (bfttfInitLoop env s tbl).1.count =
          s.count + ((bfttfInitLoop env s tbl).2.countP fun fi => fi.data.isSome) ∧
        (∀ fi ∈ (bfttfInitLoop env s tbl).2, fi.data = none → fi.size = 0) ∧
        (((bfttfInitLoop env s tbl).2.countP fun fi => fi.data.isSome) = 0 →
          (bfttfInitLoop env s tbl).2 = tbl) := by
  intro tbl
  induction tbl with
  | nil =>
    intro s hempty
    refine ⟨rfl, by simp [bfttfInitLoop], ?_, fun _ => rfl⟩
    intro fi hfi
    simp [bfttfInitLoop] at hfi
  | cons fi rest ih =>
    intro s hempty
    obtain ⟨h0, hd⟩ := hempty fi (List.mem_cons_self fi rest)
    have hrest : ∀ f ∈ rest, f.size = 0 ∧ f.data = none :=
      fun f hf => hempty f (List.mem_cons_of_mem fi hf)
    obtain ⟨hc, hslot⟩ := bfttfInitEntry_slot env s fi h0 hd
    obtain ⟨ihL, ihC, ihS, ihR⟩ := ih ((bfttfInitEntry env s fi).1) hrest
    have hfst : (bfttfInitLoop env s (fi :: rest)).1 =
        (bfttfInitLoop env (bfttfInitEntry env s fi).1 rest).1 := rfl
    have hsnd : (bfttfInitLoop env s (fi :: rest)).2 =
        (bfttfInitEntry env s fi).2 ::
          (bfttfInitLoop env (bfttfInitEntry env s fi).1 rest).2 := rfl
    refine ⟨?_, ?_, ?_, ?_⟩
    · rw [hsnd]
      simp [ihL]
    · rw [hfst, hsnd, ihC, hc, List.countP_cons]
      cases hdat : (bfttfInitEntry env s fi).2.data <;> simp [hdat] <;> omega
    · rw [hsnd]
      intro f hf
      rcases List.mem_cons.mp hf with hf1 | hf2
      · subst hf1
        intro hfd
        rw [hslot hfd]
        exact h0
      · exact ihS f hf2
    · rw [hsnd, List.countP_cons]
      intro hzero
      cases hdat : (bfttfInitEntry env s fi).2.data with
      | none =>
        have hz1 :
            ((bfttfInitLoop env (bfttfInitEntry env s fi).1 rest).2.countP
              fun f => f.data.isSome) = 0 := by
          simpa [hdat] using hzero
        rw [hslot hdat, ihR hz1]
      | some bs =>
        exfalso
        simp [hdat] at hzero

/-- If the interface is already initialized, `bfttfInitialize` returns
success at once, touching nothing and attempting no container open. -/
theorem bfttfInitialize_already (env : BfttfEnv) (st : BfttfState)
    (h : st.g_bfttfInterfaceInit = true) : bfttfInitialize env st = (true, st, []) := by
  unfold bfttfInitialize
  rw [if_pos h]

/-- On the fresh state, `bfttfInitialize` either stops at the failed
temporary-context allocation or runs the loop over the table. -/
theorem bfttfInitialize_fresh (env : BfttfEnv) :
    bfttfInitialize env initialBfttfState =
      if env.callocNcaCtx = false then (false, initialBfttfState, [])
      else
        (decide (0 < (bfttfInitLoop env ⟨0, none, 0, []⟩ g_fontInfo).1.count),
          ⟨decide (0 < (bfttfInitLoop env ⟨0, none, 0, []⟩ g_fontInfo).1.count),
            (bfttfInitLoop env ⟨0, none, 0, []⟩ g_fontInfo).2⟩,
          (bfttfInitLoop env ⟨0, none, 0, []⟩ g_fontInfo).1.attempts) := by
  unfold bfttfInitialize
  rw [if_neg (by simp [initialBfttfState])]
  rfl

/-- The `g_bfttfInterfaceInit` flag after a call of `bfttfInitialize`
equals the returned boolean. -/
theorem bfttfInitialize_flag (env : BfttfEnv) (st : BfttfState) :
    (bfttfInitialize env st).2.1.g_bfttfInterfaceInit = (bfttfInitialize env st).1 := by
  unfold bfttfInitialize
  split_ifs with h1 h2
  · exact h1
  · simp only [Bool.not_eq_true] at h1
    exact h1
  · rfl

/-- C3 (amended): during a fresh initialization, a container-open sequence
is attempted exactly for each table entry whose `container_id` differs from
the last *successfully* opened container (`prev_title_id`, initially 0) —
so after an open failure, subsequent entries sharing that `container_id`
are each retried (only entries matching the last successful open skip the
open), as captured by `containerOpenAttempts`. -/
theorem C3_container_open_attempts (env : BfttfEnv) (hcal : env.callocNcaCtx = true) :
    (bfttfInitialize env initialBfttfState).2.2 =
      containerOpenAttempts env 0 g_fontInfo := by
  rw [bfttfInitialize_fresh, if_neg (by simp [hcal])]
  simp only
  rw [bfttfInitLoop_attempts env g_fontInfo ⟨0, none, 0, []⟩]
  simp

/-- C3 witness: the amended attempt-trace characterization evaluated in the
all-failing environment. -/
theorem C3_witness :
    (bfttfInitialize envAllFail initialBfttfState).2.2 =
      containerOpenAttempts envAllFail 0 g_fontInfo :=
  C3_container_open_attempts envAllFail rfl

/-- C3 counterexample: with every container open failing, the two
consecutive entries sharing title `0x0100000000000810` both trigger an open
attempt — the second entry is *not* skipped without re-attempting the open,
contrary to the claim. -/
theorem C3_counterexample :
    (bfttfInitialize envAllFail initialBfttfState).2.2 =
        [0x0100000000000811, 0x0100000000000810, 0x0100000000000810, 0x0100000000000812,
          0x0100000000000814, 0x0100000000000814, 0x0100000000000813] ∧
      (bfttfInitialize envAllFail initialBfttfState).2.2.count 0x0100000000000810 = 2 := by
  decide

/-- C6: a fresh `bfttfInitialize` returns `true` and sets the process-wide
flag exactly when at least one table entry was fetched and decoded
successfully (its slot holds a buffer); each failure affects only its own
entry — every slot that comes out without a buffer has been left/reset to
the empty state (size 0) while the remaining entries were still processed
— and `false` is returned with the flag clear exactly when no entry
succeeded. -/
theorem C6_init_success_iff (env : BfttfEnv) :
    ((bfttfInitialize env initialBfttfState).1 = true ↔
        ∃ fi ∈ (bfttfInitialize env initialBfttfState).2.1.g_fontInfo, fi.data ≠ none) ∧
      (bfttfInitialize env initialBfttfState).2.1.g_bfttfInterfaceInit =
        (bfttfInitialize env initialBfttfState).1 ∧
      ∀ fi ∈ (bfttfInitialize env initialBfttfState).2.1.g_fontInfo,
        fi.data = none → fi.size = 0 := by
  refine ⟨?_, bfttfInitialize_flag env initialBfttfState, ?_⟩
  · rw [bfttfInitialize_fresh]
    by_cases hcal : env.callocNcaCtx = false
    · rw [if_pos hcal]
      simp only
      constructor
      · intro h; cases h
      · rintro ⟨fi, hfi, hne⟩
        have hall : ∀ f ∈ initialBfttfState.g_fontInfo, f.data = none := by decide
        exact absurd (hall fi hfi) hne
    · rw [if_neg hcal]
      obtain ⟨hL, hC, hS, hR⟩ := bfttfInitLoop_slots env g_fontInfo ⟨0, none, 0, []⟩ (by decide)
      simp only [decide_eq_true_eq]
      rw [hC]
      simp only [Nat.zero_add, List.countP_pos_iff]
      constructor
      · rintro ⟨fi, hfi, hp⟩
        exact ⟨fi, hfi, by simpa [Option.isSome_iff_ne_none] using hp⟩
      · rintro ⟨fi, hfi, hne⟩
        exact ⟨fi, hfi, by simpa [Option.isSome_iff_ne_none]⟩
  · rw [bfttfInitialize_fresh]
    by_cases hcal : env.callocNcaCtx = false
    · rw [if_pos hcal]
      intro fi hfi
      have hall : ∀ f ∈ initialBfttfState.g_fontInfo, f.data = none → f.size = 0 := by decide
      exact hall fi hfi
    · rw [if_neg hcal]
      obtain ⟨hL, hC, hS, hR⟩ := bfttfInitLoop_slots env g_fontInfo ⟨0, none, 0, []⟩ (by decide)
      exact hS

/-- C7 (amended): when the first `bfttfInitialize` call returned `true`,
a second call is a no-op — it returns `true` immediately, mutates nothing
and attempts no container open.  When the first call returned `false`,
however, the interface flag is still clear and the final state equals the
initial one, so a second call redoes the whole initialization (with the
same collaborator behaviour it returns the same result and trace — it is
*not* a no-op). -/
theorem C7_second_call (env : BfttfEnv) :
    ((bfttfInitialize env initialBfttfState).1 = true →
        bfttfInitialize env (bfttfInitialize env initialBfttfState).2.1 =
          (true, (bfttfInitialize env initialBfttfState).2.1, [])) ∧
      ((bfttfInitialize env initialBfttfState).1 = false →
        (bfttfInitialize env initialBfttfState).2.1 = initialBfttfState ∧
          bfttfInitialize env (bfttfInitialize env initialBfttfState).2.1 =
            bfttfInitialize env initialBfttfState) := by
  constructor
  · intro h
    have hflag := bfttfInitialize_flag env initialBfttfState
    rw [h] at hflag
    exact bfttfInitialize_already env _ hflag
  · intro h
    have hst : (bfttfInitialize env initialBfttfState).2.1 = initialBfttfState := by
      rw [bfttfInitialize_fresh] at h ⊢
      by_cases hcal : env.callocNcaCtx = false
      · rw [if_pos hcal]
      · rw [if_neg hcal] at h ⊢
        simp only at h ⊢
        rw [decide_eq_false_iff_not] at h
        obtain ⟨hL, hC, hS, hR⟩ :=
          bfttfInitLoop_slots env g_fontInfo ⟨0, none, 0, []⟩ (by decide)
        have hcp :
            ((bfttfInitLoop env ⟨0, none, 0, []⟩ g_fontInfo).2.countP
              fun fi => fi.data.isSome) = 0 := by
          rw [hC] at h
          omega
        have hcount : (bfttfInitLoop env ⟨0, none, 0, []⟩ g_fontInfo).1.count = 0 := by
          rw [hC, hcp]
        rw [hR hcp, hcount]
        rfl
    exact ⟨hst, by rw [hst]⟩

/-- C7 witness: in the all-succeeding environment the first call returns
`true` and the second call is a no-op returning `true` with no open
attempts. -/
theorem C7_witness :
    bfttfInitialize envOK (bfttfInitialize envOK initialBfttfState).2.1 =
      (true, (bfttfInitialize envOK initialBfttfState).2.1, []) :=
  (C7_second_call envOK).1 (by decide)

/-- C7 counterexample: with every collaborator failing, the first call
returns `false` and the second call again attempts container opens (its
attempt trace is non-empty), so the second call is not a no-op — contrary
to the claim that the second call re-reads nothing whatever boolean the
first call returned. -/
theorem C7_counterexample :
    (bfttfInitialize envAllFail initialBfttfState).1 = false ∧
      (bfttfInitialize envAllFail
          (bfttfInitialize envAllFail initialBfttfState).2.1).2.2 ≠ [] := by
  decide
